import Mathlib

/-!
Verification development for the Sim800L AT-command engine
(src/Sim800L.cpp of the Sim800L Arduino library).

Modelling conventions.  Arduino String values are modelled as lists of
characters (Str).  The serial transport is modelled either as a list or a
stream of read results (one entry per internal _readSerial call), or, for
the timing claims about _readSerial itself, as a function from poll ticks
to the bytes available at that tick.  Machine integers are modelled as Int.
The only place where C unsigned wrap-around is observable on the inputs the
claims quantify over is the PDU length computation in sendSms(String); the
Int model agrees with the AVR 16-bit unsigned semantics there for all
string lengths below 65538 (see sendSmsPdu).  Writes to the modem transport
are recorded as a list of write events; debug prints to the USB serial
(Serial.println) are not transport writes and are not recorded.
-/

/-- Arduino String contents, modelled as a list of characters. -/
abbrev Str := List Char

/-- Offset of the first position of a list at which pat occurs as a prefix
of the remaining suffix: the strstr search underlying Arduino
String.indexOf(String). -/
def findSub (pat : Str) : Str → Option Nat
  | [] => if pat = [] then some 0 else none
  | c :: t => if pat.isPrefixOf (c :: t) then some 0 else (findSub pat t).map (· + 1)

/-- Arduino String.indexOf(s2, fromIndex): -1 when fromIndex is out of range
or s2 does not occur at or after fromIndex, otherwise the absolute index of
the first occurrence.  A negative fromIndex converts to a huge unsigned in
the source and yields -1; the model mirrors that. -/
def indexOfFromA (s pat : Str) (fromIdx : Int) : Int :=
  if fromIdx < 0 ∨ (s.length : Int) ≤ fromIdx then -1
  else
    match findSub pat (s.drop fromIdx.toNat) with
    | none => -1
    | some k => fromIdx + (k : Int)

/-- Arduino String.indexOf(s2): search from the start of the string. -/
def indexOfA (s pat : Str) : Int :=
  indexOfFromA s pat 0

/-- Index of the last occurrence of a character, as an Option. -/
def lastIdxAuxC (c : Char) : Str → Option Nat
  | [] => none
  | a :: t =>
    match lastIdxAuxC c t with
    | some k => some (k + 1)
    | none => if a = c then some 0 else none

/-- Arduino String.lastIndexOf(ch): index of the last occurrence of the
character, or -1 when absent. -/
def lastIndexOfCharA (s : Str) (c : Char) : Int :=
  match lastIdxAuxC c s with
  | none => -1
  | some k => (k : Int)

/-- Arduino String.substring(left, right): swaps the bounds when
left > right, returns "" when left is at or past the end, clamps right to
the length, and yields the characters in [left, right).  The source takes
unsigned parameters; every call site the claims exercise passes
non-negative in-range indices, where this Int model coincides. -/
def substringA (s : Str) (left right : Int) : Str :=
  let l := if left > right then right else left
  let r := if left > right then left else right
  if (s.length : Int) ≤ l then []
  else
    let r := if (s.length : Int) < r then (s.length : Int) else r
    (s.take r.toNat).drop l.toNat

/-- The whitespace class skipped by atol (isspace). -/
def isSpaceA (c : Char) : Bool :=
  c = ' ' || c = '\t' || c = '\n' || c = '\r' || c = '\x0b' || c = '\x0c'

/-- Accumulate leading decimal digits, stopping at the first non-digit. -/
def parseNatDigits : Str → Int → Int
  | [], acc => acc
  | c :: t, acc =>
    if c.isDigit then parseNatDigits t (acc * 10 + ((c.toNat : Int) - 48)) else acc

/-- Arduino String.toInt (atol): skip leading whitespace, consume an
optional sign and then decimal digits, stopping at the first non-digit;
0 when no digits are present. -/
def toIntA (s : Str) : Int :=
  match s.dropWhile isSpaceA with
  | '-' :: t => - parseNatDigits t 0
  | '+' :: t => parseNatDigits t 0
  | t => parseNatDigits t 0

/-- One write event on the modem transport: a string, a decimal-printed
integer, or a single raw byte. -/
inductive WEv
  | ws (s : Str)
  | wi (n : Int)
  | wb (b : Nat)
deriving DecidableEq

/-- Result of Sim800L::sendSms(String): the returned code, the busy flag
after the call, and the transport writes performed. -/
structure PduResult where
  ret : Int
  isBusy : Bool
  writes : List WEv
deriving DecidableEq

/-- Sim800L::sendSms(String pdu), src/Sim800L.cpp lines 608-650.  reads
lists the successive _readSerial results (the acknowledgement checked is
the third read).  pduLength is computed as (pdu.length() / 2) - 1; on AVR
this is 16-bit unsigned arithmetic narrowed to int, which agrees with the
Int expression below for every length up to 65537 (in particular length 0
gives -1). -/
def sendSmsPdu (pdu : Str) (isBusy : Bool) (reads : List Str) : PduResult :=
  let pduLength : Int := (pdu.length : Int) / 2 - 1
  if pduLength < 10 ∨ isBusy then
    { ret := -4, isBusy := isBusy, writes := [] }
  else
    let writes := [WEv.ws (("AT+CMGS=").data), WEv.wi pduLength,
                   WEv.ws (("\r\n").data), WEv.ws pdu, WEv.wb 26]
    let buffer := reads.getD 2 []
    if indexOfA buffer (("ERROR").data) ≠ -1 then
      { ret := -2, isBusy := false, writes := writes }
    else if indexOfA buffer (("CMGS").data) < 0 then
      { ret := -3, isBusy := false, writes := writes }
    else
      let indexOfTwoDots := indexOfA buffer ((":").data)
      if indexOfTwoDots = -1 then
        { ret := -1, isBusy := false, writes := writes }
      else
        { ret := toIntA (substringA buffer (indexOfTwoDots + 1) (buffer.length : Int)),
          isBusy := false, writes := writes }

/-- Sim800L::sendSms(char* number, char* text), src/Sim800L.cpp lines
652-679.  The returned Bool follows the function verbatim; its own trailing
comment states the convention: error found returns 1 (true), error not
found returns 0 (false).  The acknowledgement checked is the fourth
_readSerial result. -/
def sendSmsText (number text : Str) (reads : List Str) : Bool × List WEv :=
  let writes := [WEv.ws (("AT+CMGF=1\r").data), WEv.ws (("AT+CMGS=\"").data),
                 WEv.ws number, WEv.ws (("\"\r").data), WEv.ws text,
                 WEv.ws (("\r").data), WEv.wb 26]
  let buffer := reads.getD 3 []
  if indexOfA buffer (("ER").data) ≠ -1 then (true, writes)
  else if indexOfA buffer (("CMGS").data) ≠ -1 then (false, writes)
  else (true, writes)

/-- The registration states named in src/Sim800L.cpp lines 341-393 (the
enumeration is declared in the library header; the names and the order of
use are taken from the translation unit). -/
inductive NetworkRegistrationStatus
  | notRegistrerAndNotSearching
  | registrerHomeNetwork
  | notRegistrerAndSearching
  | registerDenied
  | unknown
  | registerRoaming
  | registerSmsOnlyHomeNetwork
  | registerSmsOnlyRoaming
  | registeredForEmergencyService
  | registeredForCSFBNotPreferedHomeNetwork
  | registeredForCSFBNotPreferedRoaming
deriving DecidableEq

/-- Sim800L::registrationStatus, src/Sim800L.cpp lines 341-393: the reply
buffer is matched against the literal tokens "CREG: 0,1" .. "CREG: 9,1" in
that order, first match wins; the token "CREG: 9,1" is tested twice in the
source, so the second (roaming CSFB) branch is unreachable. -/
def registrationStatusOf (status : Str) : NetworkRegistrationStatus :=
  if indexOfA status (("CREG: 0,1").data) > -1 then .notRegistrerAndNotSearching
  else if indexOfA status (("CREG: 1,1").data) > -1 then .registrerHomeNetwork
  else if indexOfA status (("CREG: 2,1").data) > -1 then .notRegistrerAndSearching
  else if indexOfA status (("CREG: 3,1").data) > -1 then .registerDenied
  else if indexOfA status (("CREG: 4,1").data) > -1 then .unknown
  else if indexOfA status (("CREG: 5,1").data) > -1 then .registerRoaming
  else if indexOfA status (("CREG: 6,1").data) > -1 then .registerSmsOnlyHomeNetwork
  else if indexOfA status (("CREG: 7,1").data) > -1 then .registerSmsOnlyRoaming
  else if indexOfA status (("CREG: 8,1").data) > -1 then .registeredForEmergencyService
  else if indexOfA status (("CREG: 9,1").data) > -1 then .registeredForCSFBNotPreferedHomeNetwork
  else if indexOfA status (("CREG: 9,1").data) > -1 then .registeredForCSFBNotPreferedRoaming
  else .unknown

/-- The status-code token tested for each numeric registration code. -/
def cregToken : Fin 10 → Str
  | 0 => ("CREG: 0,1").data
  | 1 => ("CREG: 1,1").data
  | 2 => ("CREG: 2,1").data
  | 3 => ("CREG: 3,1").data
  | 4 => ("CREG: 4,1").data
  | 5 => ("CREG: 5,1").data
  | 6 => ("CREG: 6,1").data
  | 7 => ("CREG: 7,1").data
  | 8 => ("CREG: 8,1").data
  | 9 => ("CREG: 9,1").data

/-- The enumeration value the source pairs with each numeric token, in the
ascending order of the if-chain of registrationStatus. -/
def cregTable : Fin 10 → NetworkRegistrationStatus
  | 0 => .notRegistrerAndNotSearching
  | 1 => .registrerHomeNetwork
  | 2 => .notRegistrerAndSearching
  | 3 => .registerDenied
  | 4 => .unknown
  | 5 => .registerRoaming
  | 6 => .registerSmsOnlyHomeNetwork
  | 7 => .registerSmsOnlyRoaming
  | 8 => .registeredForEmergencyService
  | 9 => .registeredForCSFBNotPreferedHomeNetwork

/-- Sim800L::getOperator, src/Sim800L.cpp lines 301-327, as a function of
the reply captured by the first bounded read and of the result of the
fall-back secondary read: replies without "+COPS:" yield "Unknown";
otherwise the text strictly between the first and last quote is returned
when those quotes are distinct, and the secondary read result otherwise. -/
def getOperatorModel (operatorName secondary : Str) : Str :=
  if indexOfA operatorName (("+COPS:").data) = -1 then ("Unknown").data
  else if indexOfA operatorName (("\"").data) ≠ -1 then
    let indexOfQuote := indexOfA operatorName (("\"").data)
    let lastIndexOfQuote := lastIndexOfCharA operatorName '"'
    if lastIndexOfQuote ≠ indexOfQuote ∧ indexOfQuote < lastIndexOfQuote then
      substringA operatorName (indexOfQuote + 1) lastIndexOfQuote
    else secondary
  else secondary

/-- The engine's stored location fix fields. -/
structure LocState where
  locationCode : Str
  longitude : Str
  latitude : Str
deriving DecidableEq

/-- Sim800L::calculateLocation, src/Sim800L.cpp lines 396-441, as a
function of the reply buffer: on an "ER" reply returns false and leaves the
stored fields; otherwise splits on the colon and the commas exactly as the
source does (the source keeps the intermediate indices in uint8_t, which is
lossless for every index the sample reply produces). -/
def calculateLocationOn (data : Str) (st : LocState) : Bool × LocState :=
  if indexOfA data (("ER").data) ≠ -1 then (false, st)
  else
    let i1 := indexOfA data ((":").data) + 1
    let i2 := indexOfA data ((",").data)
    let locationCode := substringA data i1 i2
    let j1 := indexOfA data ((",").data) + 1
    let j2 := indexOfFromA data ((",").data) j1
    let longitude := substringA data j1 j2
    let k1 := indexOfFromA data ((",").data) j2 + 1
    let k2 := indexOfFromA data ((",").data) k1
    let latitude := substringA data k1 k2
    (true, { locationCode := locationCode, longitude := longitude, latitude := latitude })

/-- Sim800L::getLocationCode. -/
def getLocationCode (st : LocState) : Str := st.locationCode

/-- Sim800L::getLongitude. -/
def getLongitude (st : LocState) : Str := st.longitude

/-- Sim800L::getLatitude. -/
def getLatitude (st : LocState) : Str := st.latitude

/-- The fixed sample reply of the location-parsing property. -/
def locationSampleReply : Str :=
  ("+CIPGSMLOC: 0,-58.123456,-34.654321,2024/01/01,00:00:00").data

/-- The six integer outputs of Sim800L::RTCtime. -/
structure RtcFields where
  year : Int
  month : Int
  day : Int
  hour : Int
  minute : Int
  second : Int
deriving DecidableEq

/-- Sim800L::RTCtime, src/Sim800L.cpp lines 924-944, as a function of the
reply buffer: none when the reply contains "ERR" (the outputs are then left
unassigned), otherwise the slice between indexOf('"')+1 and
lastIndexOf('"')-1 is cut at the fixed offsets of the source. -/
def RTCtimeModel (buffer : Str) : Option RtcFields :=
  if indexOfA buffer (("ERR").data) ≠ -1 then none
  else
    let b := substringA buffer (indexOfA buffer (("\"").data) + 1)
               (lastIndexOfCharA buffer '"' - 1)
    some { year := toIntA (substringA b 0 2)
         , month := toIntA (substringA b 3 5)
         , day := toIntA (substringA b 6 8)
         , hour := toIntA (substringA b 9 11)
         , minute := toIntA (substringA b 12 14)
         , second := toIntA (substringA b 15 17) }

/-- Sim800L::setPIN retry loop, src/Sim800L.cpp lines 205-219: the loop
control variable indexOfAnswer is never reassigned inside the loop, so the
loop exits only through the two returns; a fuel parameter makes the model
total, none meaning the fuel was exhausted without exiting. -/
def setPINLoop (reads : Nat → Str) : Nat → Nat → Option Bool
  | _, 0 => none
  | n, fuel + 1 =>
    let pinStatus := reads n
    if indexOfA pinStatus (("ERR").data) ≠ -1 then some false
    else if indexOfA pinStatus (("OK").data) ≠ -1 then some true
    else setPINLoop reads (n + 1) fuel

/-- setPIN completes on the given stream of read results. -/
def setPINTerminates (reads : Nat → Str) : Prop :=
  ∃ fuel, (setPINLoop reads 0 fuel).isSome

/-- Sim800L::PINIsReady wait loop, src/Sim800L.cpp lines 236-253: reads
until a reply contains "ERR" or "OK", then reports whether that reply
contains "CPIN: READY". -/
def PINIsReadyLoop (reads : Nat → Str) : Nat → Nat → Option Bool
  | _, 0 => none
  | n, fuel + 1 =>
    let pinStatus := reads n
    let idx0 := indexOfA pinStatus (("ERR").data)
    let idx := if idx0 = -1 then indexOfA pinStatus (("OK").data) else idx0
    if idx = -1 then PINIsReadyLoop reads (n + 1) fuel
    else some (decide (indexOfA pinStatus (("CPIN: READY").data) ≠ -1))

/-- PINIsReady completes on the given stream of read results. -/
def PINIsReadyTerminates (reads : Nat → Str) : Prop :=
  ∃ fuel, (PINIsReadyLoop reads 0 fuel).isSome

/-- First wait loop of Sim800L::reset, src/Sim800L.cpp lines 485-488: poll
until a read contains "OK"; yields the index of the next unread reply. -/
def resetLoop1 (reads : Nat → Str) : Nat → Nat → Option Nat
  | _, 0 => none
  | n, fuel + 1 =>
    if indexOfA (reads n) (("OK").data) = -1 then resetLoop1 reads (n + 1) fuel
    else some (n + 1)

/-- Second wait loop of Sim800L::reset, src/Sim800L.cpp line 491: poll
until a read contains "SMS". -/
def resetLoop2 (reads : Nat → Str) : Nat → Nat → Option Nat
  | _, 0 => none
  | n, fuel + 1 =>
    if indexOfA (reads n) (("SMS").data) = -1 then resetLoop2 reads (n + 1) fuel
    else some (n + 1)

/-- Sim800L::reset, src/Sim800L.cpp lines 474-495 (the transport part): the
"OK" wait followed by the "SMS" wait. -/
def resetModel (reads : Nat → Str) (fuel : Nat) : Option Unit :=
  match resetLoop1 reads 0 fuel with
  | none => none
  | some n => (resetLoop2 reads n fuel).map (fun _ => ())

/-- reset completes on the given stream of read results. -/
def resetTerminates (reads : Nat → Str) : Prop :=
  ∃ fuel, (resetModel reads fuel).isSome

/-- Loop state of the "+CMT:" scan of Sim800L::checkForGsmMessage:
firstIndexHandle, lastIndexHandle, indexOfCMT and the payloads dispatched
to onNewMessage so far, in order. -/
structure ScanState where
  firstIndexHandle : Int
  lastIndexHandle : Int
  indexOfCMT : Int
  calls : List Str
deriving DecidableEq

/-- Body of the inner for loop of the "+CMT:" scan, src/Sim800L.cpp lines
791-829, at buffer position i.  By C operator precedence the guard
(i>0 && (buf[i-1]=='\r' && buf[i]=='\n') || (buf[i]=='\n')) is equivalent
to buf[i]=='\n' except for the out-of-range read at i = 0, which the
source only reaches through the first branch (where buf[i-1] is not read);
getD with a default mirrors that access. -/
def cmtStep (s : Str) (hasNewMessage : Bool) (st : ScanState) (i : Nat) : ScanState :=
  if (0 < i ∧ s.getD (i - 1) ' ' = '\r' ∧ s.getD i ' ' = '\n') ∨ s.getD i ' ' = '\n' then
    if st.firstIndexHandle = 0 then { st with firstIndexHandle := (i : Int) + 1 }
    else
      let last : Int := if s.getD (i - 1) ' ' = '\r' then (i : Int) - 1 else (i : Int)
      let st1 := { st with lastIndexHandle := last }
      if st1.firstIndexHandle > 0 ∧ last > st1.firstIndexHandle then
        { st1 with
            calls := st1.calls ++
              (if hasNewMessage then [substringA s st1.firstIndexHandle last] else []),
            indexOfCMT := indexOfFromA s (("+CMT:").data) last,
            firstIndexHandle := 0 }
      else st1
  else st

/-- One full pass of the inner for loop, from position start to the end of
the buffer. -/
def cmtFor (s : Str) (hasNewMessage : Bool) (st : ScanState) (start : Nat) : ScanState :=
  (List.range' start (s.length - start)).foldl (cmtStep s hasNewMessage) st

/-- The outer while (indexOfCMT != -1) loop of the "+CMT:" scan, with fuel
bounding the number of passes; none means the fuel ran out with the loop
still running. -/
def cmtWhile (s : Str) (hasNewMessage : Bool) : ScanState → Nat → Option ScanState
  | st, 0 => if st.indexOfCMT = -1 then some st else none
  | st, fuel + 1 =>
    if st.indexOfCMT = -1 then some st
    else cmtWhile s hasNewMessage (cmtFor s hasNewMessage st st.indexOfCMT.toNat) fuel

/-- Loop state of the "+CDS:" scan of checkForGsmMessage. -/
structure CdsState where
  firstIndexHandle : Int
  lastIndexHandle : Int
  calls : List Str
deriving DecidableEq

/-- Body of the "+CDS:" for loop, src/Sim800L.cpp lines 747-777: here the
guard genuinely requires the two-character "\r\n" sequence. -/
def cdsStep (s : Str) (hasStatusReport : Bool) (st : CdsState) (i : Nat) : CdsState :=
  if 0 < i ∧ s.getD (i - 1) ' ' = '\r' ∧ s.getD i ' ' = '\n' then
    if st.firstIndexHandle = 0 then { st with firstIndexHandle := (i : Int) + 1 }
    else
      let st1 := { st with lastIndexHandle := (i : Int) - 1 }
      if st1.firstIndexHandle > 0 ∧ st1.lastIndexHandle > st1.firstIndexHandle then
        { st1 with
            calls := st1.calls ++
              (if hasStatusReport then
                [substringA s st1.firstIndexHandle st1.lastIndexHandle] else []) }
      else st1
  else st

/-- The "+CDS:" scan of checkForGsmMessage: a single pass over the buffer
from the first occurrence of the marker, dispatching onStatusReport. -/
def cdsScan (s : Str) (hasStatusReport : Bool) : List Str :=
  let indexOfCds := indexOfA s (("+CDS:").data)
  if indexOfCds = -1 then []
  else
    ((List.range' indexOfCds.toNat (s.length - indexOfCds.toNat)).foldl
      (cdsStep s hasStatusReport)
      { firstIndexHandle := 0, lastIndexHandle := 0, calls := [] }).calls

/-- The handler invocations produced by one call of checkForGsmMessage. -/
structure GsmResult where
  newMessageCalls : List Str
  statusReportCalls : List Str
deriving DecidableEq

/-- Sim800L::checkForGsmMessage, src/Sim800L.cpp lines 720-839: a short
read (empty means no traffic: return at once), a second read appended to
the buffer, the "+CDS:" scan, then the fuelled "+CMT:" scan; none when the
"+CMT:" while loop does not finish within the fuel. -/
def checkForGsmMessage (reads : Nat → Str) (hasNewMessage hasStatusReport : Bool)
    (fuel : Nat) : Option GsmResult :=
  let r1 := reads 0
  if r1.length = 0 then some { newMessageCalls := [], statusReportCalls := [] }
  else
    let buffer := r1 ++ reads 1
    let statusReportCalls := cdsScan buffer hasStatusReport
    match cmtWhile buffer hasNewMessage
      { firstIndexHandle := 0, lastIndexHandle := 0,
        indexOfCMT := indexOfA buffer (("+CMT:").data), calls := [] } fuel with
    | none => none
    | some st => some { newMessageCalls := st.calls, statusReportCalls := statusReportCalls }

/-- checkForGsmMessage completes on the given stream of read results. -/
def checkForGsmTerminates (reads : Nat → Str) (hasNewMessage hasStatusReport : Bool) : Prop :=
  ∃ fuel, (checkForGsmMessage reads hasNewMessage hasStatusReport fuel).isSome

/-- A transport that never produces a byte: every read returns "". -/
def silentReads : Nat → Str := fun _ => []

/-- A transport whose first read is a "+CMT:" header line with no payload
line after it; the second read is empty. -/
def cmtStuckReads : Nat → Str := fun n => if n = 0 then ("+CMT: x\r\n").data else []

/-- The polling loop of Sim800L::_readSerial, src/Sim800L.cpp lines
1044-1066 (and lines 1020-1042 with the default timeout): starting at tick
t, exit at the first tick with bytes available or at the first tick past
the deadline.  avail t is what the transport reports available if polled at
tick t; one loop iteration advances the clock by one tick.  The fuel is an
artifact of totalization: pollFrom is only applied with enough fuel for the
loop to reach its deadline. -/
def pollFrom (avail : Nat → Str) (deadline : Nat) : Nat → Nat → Nat
  | t, 0 => t
  | t, fuel + 1 =>
    if avail t ≠ [] then t
    else if deadline < t then t
    else pollFrom avail deadline (t + 1) fuel

/-- The tick at which _readSerial(timeout) stops polling, having started at
tick t0 with deadline t0 + timeout. -/
def readSerialExit (avail : Nat → Str) (t0 timeout : Nat) : Nat :=
  pollFrom avail (t0 + timeout) t0 (timeout + 2)

/-- The buffer _readSerial(timeout) returns: all bytes available at the
tick at which polling stopped (the drain loop of the source reads every
available byte and does not wait for a terminator). -/
def readSerialT (avail : Nat → Str) (t0 timeout : Nat) : Str :=
  avail (readSerialExit avail t0 timeout)

/-! Helper lemmas. -/

/-- A list is a Boolean prefix of itself followed by anything. -/
theorem prefAppend (p r : Str) : p.isPrefixOf (p ++ r) = true := by
  induction p with
  | nil => simp [List.isPrefixOf]
  | cons a t ih => simp [List.isPrefixOf, ih]

/-- findSub of a non-empty pattern in the empty list fails. -/
theorem findSub_nil (pat : Str) (h : pat ≠ []) : findSub pat [] = none := by
  simp [findSub, h]

/-- findSub succeeds at offset 0 when the pattern is a prefix. -/
theorem findSub_here (pat s : Str) (hp : pat ≠ []) (h : pat.isPrefixOf s = true) :
    findSub pat s = some 0 := by
  cases s with
  | nil =>
    cases pat with
    | nil => exact absurd rfl hp
    | cons a t => simp [List.isPrefixOf] at h
  | cons a t => simp [findSub, h]

/-- findSub steps over one position at which the pattern does not match. -/
theorem findSub_stepMismatch (pat : Str) (a : Char) (t : Str)
    (h : pat.isPrefixOf (a :: t) = false) :
    findSub pat (a :: t) = (findSub pat t).map (· + 1) := by
  simp [findSub, h]

/-- findSub skips over a block that never contains the pattern's first
character. -/
theorem findSub_skipAll (c : Char) (pat' A R : Str) (h : ∀ x ∈ A, x ≠ c) :
    findSub (c :: pat') (A ++ R) = (findSub (c :: pat') R).map (· + A.length) := by
  induction A with
  | nil =>
    simp only [List.nil_append, List.length_nil]
    cases findSub (c :: pat') R <;> simp
  | cons a A ih =>
    have hac : ¬ (c = a) := fun he => (h a (by simp)) he.symm
    have hnp : (c :: pat').isPrefixOf (a :: (A ++ R)) = false := by
      simp [List.isPrefixOf, hac]
    rw [List.cons_append, findSub_stepMismatch _ _ _ hnp,
      ih (fun x hx => h x (by simp [hx]))]
    cases findSub (c :: pat') R with
    | none => simp
    | some k =>
      simp only [Option.map_some', List.length_cons, Option.some.injEq]
      omega

/-- indexOfFromA when the residual search succeeds. -/
theorem indexOfFromA_some (s pat : Str) (f k : Nat) (hf : f < s.length)
    (h : findSub pat (s.drop f) = some k) :
    indexOfFromA s pat (f : Int) = ((f + k : Nat) : Int) := by
  unfold indexOfFromA
  rw [if_neg (by omega), Int.toNat_ofNat, h]
  push_cast
  ring

/-- indexOfFromA when the residual search fails. -/
theorem indexOfFromA_none (s pat : Str) (f : Nat)
    (h : findSub pat (s.drop f) = none) :
    indexOfFromA s pat (f : Int) = -1 := by
  unfold indexOfFromA
  by_cases hf : f < s.length
  · rw [if_neg (by omega), Int.toNat_ofNat, h]
  · rw [if_pos (by omega)]

/-- lastIdxAuxC over an append when the right block contains the
character. -/
theorem lastIdxAuxC_append_some (c : Char) (X Y : Str) (k : Nat)
    (h : lastIdxAuxC c Y = some k) :
    lastIdxAuxC c (X ++ Y) = some (X.length + k) := by
  induction X with
  | nil => simpa using h
  | cons a X ih =>
    rw [List.cons_append]
    simp only [lastIdxAuxC, ih, List.length_cons]
    congr 1
    omega

/-- lastIdxAuxC over an append when the right block lacks the character. -/
theorem lastIdxAuxC_append_none (c : Char) (X Y : Str)
    (h : lastIdxAuxC c Y = none) :
    lastIdxAuxC c (X ++ Y) = lastIdxAuxC c X := by
  induction X with
  | nil => simpa using h
  | cons a X ih =>
    rw [List.cons_append]
    simp only [lastIdxAuxC, ih]

/-- lastIdxAuxC fails on a list not containing the character. -/
theorem lastIdxAuxC_not_mem (c : Char) (l : Str) (h : c ∉ l) :
    lastIdxAuxC c l = none := by
  induction l with
  | nil => rfl
  | cons a t ih =>
    have ha : ¬ (a = c) := fun he => h (by simp [he])
    simp [lastIdxAuxC, ih (fun hm => h (by simp [hm])), ha]

/-- substring of a concatenation, cut exactly around the middle block. -/
theorem substringA_concat (X p Y : Str) :
    substringA (X ++ (p ++ Y)) (X.length : Int) ((X.length : Int) + (p.length : Int)) = p := by
  have hswap : ¬ ((X.length : Int) > (X.length : Int) + (p.length : Int)) := by omega
  unfold substringA
  dsimp only
  simp only [if_neg hswap]
  by_cases hle : (((X ++ (p ++ Y)).length : Int)) ≤ (X.length : Int)
  · simp only [if_pos hle]
    have hlen : p.length = 0 := by
      simp only [List.length_append] at hle
      omega
    exact (List.eq_nil_of_length_eq_zero hlen).symm
  · simp only [if_neg hle]
    have hrc : ¬ (((X ++ (p ++ Y)).length : Int) < (X.length : Int) + (p.length : Int)) := by
      simp only [List.length_append]
      omega
    simp only [if_neg hrc]
    have h1 : ((X.length : Int) + (p.length : Int)).toNat = (X ++ p).length := by
      simp only [List.length_append]
      omega
    have h2 : ((X.length : Int)).toNat = X.length := Int.toNat_ofNat _
    rw [h1, h2, ← List.append_assoc, List.take_left, List.drop_left]

/-- indexOfA when the full-buffer search succeeds. -/
theorem indexOfA_eq_some (s pat : Str) (k : Nat) (h0 : 0 < s.length)
    (h : findSub pat s = some k) : indexOfA s pat = (k : Int) := by
  unfold indexOfA indexOfFromA
  rw [if_neg (by omega), show ((0 : Int)).toNat = 0 from rfl, List.drop_zero, h]
  simp

/-- indexOfA when the full-buffer search fails. -/
theorem indexOfA_eq_none (s pat : Str) (h : findSub pat s = none) :
    indexOfA s pat = -1 := by
  unfold indexOfA indexOfFromA
  by_cases h0 : 0 < s.length
  · rw [if_neg (by omega), show ((0 : Int)).toNat = 0 from rfl, List.drop_zero, h]
  · rw [if_pos (by omega)]

/-! Claim theorems. -/

/-- Claim C1: every PDU whose encoded length (pdu.length / 2 - 1, as the
source computes it) is below 10 — including the empty string, whose encoded
length is -1 — is rejected by sendSms(String) with -4, with no transport
write and the busy flag untouched. -/
theorem sendSmsPdu_shortPduRejected (pdu : Str) (isBusy : Bool) (reads : List Str)
    (h : (pdu.length : Int) / 2 - 1 < 10) :
    sendSmsPdu pdu isBusy reads = { ret := -4, isBusy := isBusy, writes := [] } := by
  unfold sendSmsPdu
  rw [if_pos (Or.inl h)]

/-- Witness for C1 at the empty PDU (encoded length -1). -/
theorem sendSmsPdu_shortPduRejected_witness :
    ((([] : Str).length : Int) / 2 - 1 < 10) ∧
      sendSmsPdu [] false [] = { ret := -4, isBusy := false, writes := [] } :=
  ⟨by decide, sendSmsPdu_shortPduRejected [] false [] (by decide)⟩

/-- Claim C2: while the busy flag is held every further submission returns
-4 without transport writes, whatever the payload; a submission that
acquires the guard leaves the busy flag false on every exit path; hence a
following submission with a valid-length payload is not guard-rejected and
reaches the transport. -/
theorem sendSmsPdu_busyGuard (pdu pdu' : Str) (reads reads' : List Str)
    (h : ¬ ((pdu'.length : Int) / 2 - 1 < 10)) :
    sendSmsPdu pdu true reads = { ret := -4, isBusy := true, writes := [] } ∧
    (sendSmsPdu pdu false reads).isBusy = false ∧
    (sendSmsPdu pdu' (sendSmsPdu pdu false reads).isBusy reads').writes ≠ [] := by
  have hrelease : (sendSmsPdu pdu false reads).isBusy = false := by
    unfold sendSmsPdu
    dsimp only
    split_ifs <;> rfl
  refine ⟨?_, hrelease, ?_⟩
  · unfold sendSmsPdu
    rw [if_pos (Or.inr rfl)]
  · rw [hrelease]
    unfold sendSmsPdu
    dsimp only
    rw [if_neg (by simp [h])]
    split_ifs <;> simp

/-- Witness for C2 with a 22-character PDU (encoded length 10). -/
theorem sendSmsPdu_busyGuard_witness :
    (¬ (((List.replicate 22 'A' : Str).length : Int) / 2 - 1 < 10)) ∧
      sendSmsPdu [] true [] = { ret := -4, isBusy := true, writes := [] } ∧
      (sendSmsPdu [] false []).isBusy = false ∧
      (sendSmsPdu (List.replicate 22 'A') (sendSmsPdu [] false []).isBusy []).writes ≠ [] :=
  ⟨by decide, sendSmsPdu_busyGuard [] (List.replicate 22 'A') [] [] (by decide)⟩

/-- Claim C7 counterexample: on the sample location reply the stored
location code observed through getLocationCode is " 0" — the source's
substring starts one character after the colon's index plus nothing, i.e.
at the space — so it differs from the "0" the claim states. -/
theorem calculateLocation_sample_cx :
    getLocationCode (calculateLocationOn locationSampleReply
      { locationCode := [], longitude := [], latitude := [] }).2 = (" 0").data ∧
    (" 0").data ≠ ("0").data := by
  constructor
  · decide
  · decide

/-- Claim C7 as amended: on the sample reply calculateLocation succeeds and
the fields observed through the getters are " 0" (the text between the
colon and the first comma, leading space included), "-58.123456" and
"-34.654321". -/
theorem calculateLocation_sample_amended :
    (calculateLocationOn locationSampleReply
      { locationCode := [], longitude := [], latitude := [] }).1 = true ∧
    getLocationCode (calculateLocationOn locationSampleReply
      { locationCode := [], longitude := [], latitude := [] }).2 = (" 0").data ∧
    getLongitude (calculateLocationOn locationSampleReply
      { locationCode := [], longitude := [], latitude := [] }).2 = ("-58.123456").data ∧
    getLatitude (calculateLocationOn locationSampleReply
      { locationCode := [], longitude := [], latitude := [] }).2 = ("-34.654321").data := by
  refine ⟨by decide, by decide, by decide, by decide⟩

/-- Claim C9 counterexample.  The claim asserts that text-mode submission
reports failure whenever "CMGS" is in the final acknowledgement buffer and
success only in its absence.  Under the function's own return convention
(its closing comment: error found returns 1/true, error not found returns
0/false) the failure report is true: but on the ordinary acknowledgement
"+CMGS: 5\r\nOK" the function returns false, with "CMGS" present.  Under
the opposite reading (false = failure) the buffer "VERSION ERROR +CMGS: 9"
refutes it instead: "CMGS" is present yet the function returns true.  So
the claimed mapping fails under either reading of "failure". -/
theorem sendSmsText_cmgs_cx :
    ((sendSmsText (("123").data) (("hi").data)
        [[], [], [], ("+CMGS: 5\r\nOK").data]).1 = false ∧
      indexOfA (("+CMGS: 5\r\nOK").data) (("CMGS").data) ≠ -1) ∧
    ((sendSmsText (("123").data) (("hi").data)
        [[], [], [], ("VERSION ERROR +CMGS: 9").data]).1 = true ∧
      indexOfA (("VERSION ERROR +CMGS: 9").data) (("CMGS").data) ≠ -1) := by
  refine ⟨⟨by decide, by decide⟩, ⟨by decide, by decide⟩⟩

/-- Claim C9 as amended: text-mode sendSms returns false exactly when the
final acknowledgement contains "CMGS" and does not contain "ER", and true
otherwise; under the library's stated convention (true = error found) the
success marker is therefore the presence of "CMGS", as in PDU mode, and
the apparent inversion is an artifact of reading true as success. -/
theorem sendSmsText_cmgs_amended (number text : Str) (reads : List Str) :
    (sendSmsText number text reads).1 = false ↔
      (indexOfA (reads.getD 3 []) (("ER").data) = -1 ∧
        indexOfA (reads.getD 3 []) (("CMGS").data) ≠ -1) := by
  unfold sendSmsText
  dsimp only
  split_ifs with h1 h2 <;> simp_all

/-- Claim C10 (code bug): the source cuts the quoted timestamp with
substring(indexOf('"')+1, lastIndexOf('"')-1), dropping the character
before the closing quote, so on the reply +CCLK: "24/01/01,00:00:47" the
seconds slice (offsets 15-17) holds the single character "4" and the
seconds output is 4, not the full two-digit 47 the claim (and the fixed
2-digit offset contract the spec states) requires; all other fields are
two digits wide as claimed. -/
theorem RTCtime_seconds_truncated :
    RTCtimeModel (("+CCLK: \"24/01/01,00:00:47\"\r\nOK").data) =
      some { year := 24, month := 1, day := 1, hour := 0, minute := 0, second := 4 } := by
  decide


/-- Claim C8 counterexample: the reply consisting only of the quoted text
"AB" contains two distinct quote characters with text between them (first
quote at 0, last at 3), yet getOperator returns "Unknown" — the source
first requires the reply to contain "+COPS:" and never reaches the quote
extraction, so the claim fails as stated for every buffer lacking that
marker (the zero/one-quote fallback conjunct fails on such buffers too). -/
theorem getOperator_quotes_cx :
    indexOfA (("\"AB\"").data) (("\"").data) = 0 ∧
    lastIndexOfCharA (("\"AB\"").data) '"' = 3 ∧
    getOperatorModel (("\"AB\"").data) (("SEC").data) = ("Unknown").data ∧
    getOperatorModel (("\"AB\"").data) (("SEC").data) ≠ ("AB").data := by
  refine ⟨by decide, by decide, by decide, by decide⟩

/-- Claim C8 as amended: for reply buffers that do contain "+COPS:" (the
guard the source checks first), a buffer with two distinct quote characters
returns exactly the text between the first and the last quote, and a buffer
whose first and last quote indices coincide (zero or one quote character)
falls back to the secondary read and returns its result. -/
theorem getOperator_extraction_amended :
    (∀ a b c secondary : Str,
      indexOfA (a ++ ('"' :: (b ++ ('"' :: c)))) (("+COPS:").data) ≠ -1 →
      '"' ∉ a → '"' ∉ c → b ≠ [] →
      getOperatorModel (a ++ ('"' :: (b ++ ('"' :: c)))) secondary = b) ∧
    (∀ r secondary : Str,
      indexOfA r (("+COPS:").data) ≠ -1 →
      lastIndexOfCharA r '"' = indexOfA r (("\"").data) →
      getOperatorModel r secondary = secondary) := by
  constructor
  · intro a b c secondary hcops ha hc hb
    have hfind : findSub (("\"").data) (a ++ ('"' :: (b ++ ('"' :: c)))) = some a.length := by
      rw [show (("\"").data) = ['"'] from rfl]
      rw [findSub_skipAll '"' [] a ('"' :: (b ++ ('"' :: c))) (fun x hx he => ha (he ▸ hx))]
      rw [findSub_here _ _ (by decide) (by simp [List.isPrefixOf])]
      simp
    have hqidx : indexOfA (a ++ ('"' :: (b ++ ('"' :: c)))) (("\"").data) = (a.length : Int) :=
      indexOfA_eq_some _ _ _ (by simp) hfind
    have hlast2 : lastIdxAuxC '"' ('"' :: c) = some 0 := by
      simp [lastIdxAuxC, lastIdxAuxC_not_mem '"' c hc]
    have hlast1 : lastIdxAuxC '"' (b ++ ('"' :: c)) = some b.length := by
      have := lastIdxAuxC_append_some '"' b ('"' :: c) 0 hlast2
      simpa using this
    have hlast0 : lastIdxAuxC '"' ('"' :: (b ++ ('"' :: c))) = some (b.length + 1) := by
      simp [lastIdxAuxC, hlast1]
    have hlast : lastIndexOfCharA (a ++ ('"' :: (b ++ ('"' :: c)))) '"' =
        ((a.length + (b.length + 1) : Nat) : Int) := by
      unfold lastIndexOfCharA
      rw [lastIdxAuxC_append_some '"' a ('"' :: (b ++ ('"' :: c))) (b.length + 1) hlast0]
    unfold getOperatorModel
    rw [if_neg hcops]
    dsimp only
    rw [if_pos (by rw [hqidx]; omega)]
    rw [hqidx, hlast]
    rw [if_pos (by constructor <;> omega)]
    have hsub := substringA_concat (a ++ ['"']) b ('"' :: c)
    have hshape : (a ++ ['"']) ++ (b ++ ('"' :: c)) = a ++ ('"' :: (b ++ ('"' :: c))) := by
      simp
    have hlen1 : (a ++ ['"']).length = a.length + 1 := by simp
    rw [hshape, hlen1] at hsub
    have harg1 : ((a.length : Int) + 1) = (((a.length + 1 : Nat)) : Int) := by omega
    have harg2 : (((a.length + (b.length + 1) : Nat)) : Int) =
        (((a.length + 1 : Nat)) : Int) + (b.length : Int) := by push_cast; ring
    rw [harg1, harg2]
    exact hsub
  · intro r secondary hcops heq
    unfold getOperatorModel
    rw [if_neg hcops]
    dsimp only
    by_cases hq : indexOfA r (("\"").data) ≠ -1
    · rw [if_pos hq]
      rw [if_neg (by rw [heq]; simp)]
    · rw [if_neg hq]

/-- Witness for C8 (amended): a reply with a quoted operator name yields
the text between the quotes, and a quoteless "+COPS:" reply yields the
secondary read result. -/
theorem getOperator_extraction_amended_witness :
    getOperatorModel ((("+COPS: 0,0,").data) ++ ('"' :: ((("TIGO").data) ++ ('"' :: []))))
        (("SEC").data) = ("TIGO").data ∧
    getOperatorModel (("+COPS: 0").data) (("SEC").data) = ("SEC").data :=
  ⟨getOperator_extraction_amended.1 (("+COPS: 0,0,").data) (("TIGO").data) [] (("SEC").data)
      (by decide) (by decide) (by decide) (by decide),
    getOperator_extraction_amended.2 (("+COPS: 0").data) (("SEC").data)
      (by decide) (by decide)⟩

/-- Claim C4: a reply containing exactly one known token "CREG: k,1"
(k = 0..9) maps to the enumeration value the source pairs with that token,
the tokens being tested in ascending order with the first match winning
(for k = 9 the first of the two identical tests wins, so the home-network
CSFB value is returned); a reply containing none of the tokens maps to
unknown. -/
theorem registrationStatus_table_correct (s : Str) :
    (∀ k : Fin 10,
      (∀ j : Fin 10, (indexOfA s (cregToken j) > -1 ↔ j = k)) →
      registrationStatusOf s = cregTable k) ∧
    ((∀ j : Fin 10, ¬ (indexOfA s (cregToken j) > -1)) →
      registrationStatusOf s = NetworkRegistrationStatus.unknown) := by
  constructor
  · intro k h
    have h0 := h 0
    have h1 := h 1
    have h2 := h 2
    have h3 := h 3
    have h4 := h 4
    have h5 := h 5
    have h6 := h 6
    have h7 := h 7
    have h8 := h 8
    have h9 := h 9
    simp only [cregToken] at h0 h1 h2 h3 h4 h5 h6 h7 h8 h9
    fin_cases k <;>
      simp only [registrationStatusOf, h0, h1, h2, h3, h4, h5, h6, h7, h8, h9] <;>
      decide
  · intro h
    have h0 := h 0
    have h1 := h 1
    have h2 := h 2
    have h3 := h 3
    have h4 := h 4
    have h5 := h 5
    have h6 := h 6
    have h7 := h 7
    have h8 := h 8
    have h9 := h 9
    simp only [cregToken] at h0 h1 h2 h3 h4 h5 h6 h7 h8 h9
    simp only [registrationStatusOf, if_neg h0, if_neg h1, if_neg h2, if_neg h3,
      if_neg h4, if_neg h5, if_neg h6, if_neg h7, if_neg h8, if_neg h9]

/-- Witness for C4 at the reply "CREG: 5,1" (roaming). -/
theorem registrationStatus_table_correct_witness :
    (∀ j : Fin 10, (indexOfA (("CREG: 5,1").data) (cregToken j) > -1 ↔ j = 5)) ∧
    registrationStatusOf (("CREG: 5,1").data) = cregTable 5 :=
  ⟨by decide, (registrationStatus_table_correct (("CREG: 5,1").data)).1 5 (by decide)⟩

/-- The polling loop exits exactly at deadline + 1 when the transport
reports nothing at any tick the loop can reach. -/
theorem pollFrom_silent (avail : Nat → Str) (deadline : Nat) :
    ∀ fuel t, (∀ u, u ≤ deadline + 1 → avail u = []) → t ≤ deadline + 1 →
      deadline + 2 ≤ t + fuel → pollFrom avail deadline t fuel = deadline + 1 := by
  intro fuel
  induction fuel with
  | zero => intro t h ht hf; omega
  | succ f ih =>
    intro t h ht hf
    simp only [pollFrom]
    rw [if_neg (by simp [h t ht])]
    by_cases hd : deadline < t
    · rw [if_pos hd]
      omega
    · rw [if_neg hd]
      exact ih (t + 1) h (by omega) (by omega)

/-- The polling loop exits exactly at the first tick with bytes available
when that tick is at or before the deadline. -/
theorem pollFrom_firstByte (avail : Nat → Str) (deadline : Nat) :
    ∀ fuel t tF, t ≤ tF → tF ≤ deadline → avail tF ≠ [] →
      (∀ u, t ≤ u → u < tF → avail u = []) → tF + 1 ≤ t + fuel →
      pollFrom avail deadline t fuel = tF := by
  intro fuel
  induction fuel with
  | zero => intro t tF hle hFd hav hemp hf; omega
  | succ f ih =>
    intro t tF hle hFd hav hemp hf
    simp only [pollFrom]
    by_cases heq : t = tF
    · subst heq
      rw [if_pos hav]
    · rw [if_neg (by simp [hemp t le_rfl (by omega)])]
      rw [if_neg (by omega)]
      exact ih (t + 1) tF (by omega) hFd hav (fun u hu1 hu2 => hemp u (by omega) hu2) (by omega)

/-- The polling loop never runs past one tick after the deadline. -/
theorem pollFrom_le (avail : Nat → Str) (deadline : Nat) :
    ∀ fuel t, t ≤ deadline + 1 → pollFrom avail deadline t fuel ≤ deadline + 1 := by
  intro fuel
  induction fuel with
  | zero => intro t ht; exact ht
  | succ f ih =>
    intro t ht
    simp only [pollFrom]
    by_cases hav : avail t ≠ []
    · rw [if_pos hav]; exact ht
    · rw [if_neg hav]
      by_cases hd : deadline < t
      · rw [if_pos hd]; exact ht
      · rw [if_neg hd]; exact ih (t + 1) (by omega)

/-- Claim C6: when the transport reports zero bytes at every poll the loop
can reach, _readSerial returns the empty buffer and returns exactly one
polling tick after the deadline (so no earlier than the deadline); and when
some poll at or before the deadline is the first to find bytes, the loop
stops right there and returns exactly the bytes available at that tick,
without waiting for any terminator. -/
theorem readSerial_drain_and_timeout (avail : Nat → Str) (t0 timeout : Nat) :
    ((∀ t, t ≤ t0 + timeout + 1 → avail t = []) →
      readSerialT avail t0 timeout = [] ∧
      t0 + timeout ≤ readSerialExit avail t0 timeout ∧
      readSerialExit avail t0 timeout = t0 + timeout + 1) ∧
    (∀ tF, t0 ≤ tF → tF ≤ t0 + timeout → avail tF ≠ [] →
      (∀ t, t0 ≤ t → t < tF → avail t = []) →
      readSerialExit avail t0 timeout = tF ∧
      readSerialT avail t0 timeout = avail tF) := by
  constructor
  · intro h
    have hexit : readSerialExit avail t0 timeout = t0 + timeout + 1 :=
      pollFrom_silent avail (t0 + timeout) (timeout + 2) t0 h (by omega) (by omega)
    refine ⟨?_, by omega, hexit⟩
    unfold readSerialT
    rw [hexit]
    exact h _ le_rfl
  · intro tF h1 h2 hav hemp
    have hexit : readSerialExit avail t0 timeout = tF :=
      pollFrom_firstByte avail (t0 + timeout) (timeout + 2) t0 tF h1 h2 hav hemp (by omega)
    refine ⟨hexit, ?_⟩
    unfold readSerialT
    rw [hexit]

/-- Witness for C6: a silent transport times out after 3 ticks with an
empty buffer, and a transport with bytes first available at tick 2 is
drained right there. -/
theorem readSerial_drain_and_timeout_witness :
    readSerialT (fun _ => []) 0 3 = [] ∧
    readSerialExit (fun _ => []) 0 3 = 4 ∧
    readSerialExit (fun t => if t = 2 then ("AB").data else []) 0 5 = 2 ∧
    readSerialT (fun t => if t = 2 then ("AB").data else []) 0 5 = ("AB").data := by
  have hsilent := (readSerial_drain_and_timeout (fun _ => []) 0 3).1 (fun t _ => rfl)
  have hbyte := (readSerial_drain_and_timeout (fun t => if t = 2 then ("AB").data else []) 0 5).2
    2 (by omega) (by omega) (by decide)
    (fun t h1 h2 => by
      have : t ≠ 2 := by omega
      simp [this])
  refine ⟨hsilent.1, hsilent.2.2, hbyte.1, ?_⟩
  rw [hbyte.2]
  simp

/-- On a silent transport the setPIN retry loop never exits. -/
theorem setPINLoop_silent : ∀ fuel n, setPINLoop silentReads n fuel = none := by
  intro fuel
  induction fuel with
  | zero => intro n; rfl
  | succ f ih =>
    intro n
    simp only [setPINLoop, silentReads]
    rw [if_neg (by decide), if_neg (by decide)]
    exact ih (n + 1)

/-- On a silent transport the PINIsReady wait loop never exits. -/
theorem PINIsReadyLoop_silent : ∀ fuel n, PINIsReadyLoop silentReads n fuel = none := by
  intro fuel
  induction fuel with
  | zero => intro n; rfl
  | succ f ih =>
    intro n
    simp only [PINIsReadyLoop, silentReads]
    rw [if_pos (by decide)]
    exact ih (n + 1)

/-- On a silent transport the "OK" wait of reset never exits. -/
theorem resetLoop1_silent : ∀ fuel n, resetLoop1 silentReads n fuel = none := by
  intro fuel
  induction fuel with
  | zero => intro n; rfl
  | succ f ih =>
    intro n
    simp only [resetLoop1, silentReads]
    rw [if_pos (by decide)]
    exact ih (n + 1)

/-- One unfolding of the while loop of the "+CMT:" scan. -/
theorem cmtWhile_step (s : Str) (hn : Bool) (st : ScanState) (fuel : Nat)
    (h : ¬ st.indexOfCMT = -1) :
    cmtWhile s hn st (fuel + 1) =
      cmtWhile s hn (cmtFor s hn st st.indexOfCMT.toNat) fuel := by
  simp only [cmtWhile]
  rw [if_neg h]

/-- After the second pass over the header-only frame "+CMT: x\r\n" the scan
state is a fixed point of the pass with indexOfCMT still 0, so the while
loop runs forever. -/
theorem cmtWhile_stuck2 : ∀ fuel,
    cmtWhile (("+CMT: x\r\n").data) true
      { firstIndexHandle := 9, lastIndexHandle := 7, indexOfCMT := 0, calls := [] }
      fuel = none := by
  intro fuel
  induction fuel with
  | zero => decide
  | succ f ih =>
    rw [cmtWhile_step _ _ _ _ (by decide)]
    rw [show cmtFor (("+CMT: x\r\n").data) true
        { firstIndexHandle := 9, lastIndexHandle := 7, indexOfCMT := 0, calls := [] }
        (((0 : Int)).toNat) =
      { firstIndexHandle := 9, lastIndexHandle := 7, indexOfCMT := 0, calls := [] }
      from by decide]
    exact ih

/-- From the reset scan state the "+CMT:" while loop on the header-only
frame "+CMT: x\r\n" never finishes, whatever the fuel. -/
theorem cmtWhile_stuck0 : ∀ fuel,
    cmtWhile (("+CMT: x\r\n").data) true
      { firstIndexHandle := 0, lastIndexHandle := 0, indexOfCMT := 0, calls := [] }
      fuel = none := by
  intro fuel
  match fuel with
  | 0 => decide
  | 1 => decide
  | f + 2 =>
    rw [cmtWhile_step _ _ _ _ (by decide)]
    rw [show cmtFor (("+CMT: x\r\n").data) true
        { firstIndexHandle := 0, lastIndexHandle := 0, indexOfCMT := 0, calls := [] }
        (((0 : Int)).toNat) =
      { firstIndexHandle := 9, lastIndexHandle := 0, indexOfCMT := 0, calls := [] }
      from by decide]
    rw [cmtWhile_step _ _ _ _ (by decide)]
    rw [show cmtFor (("+CMT: x\r\n").data) true
        { firstIndexHandle := 9, lastIndexHandle := 0, indexOfCMT := 0, calls := [] }
        (((0 : Int)).toNat) =
      { firstIndexHandle := 9, lastIndexHandle := 7, indexOfCMT := 0, calls := [] }
      from by decide]
    exact cmtWhile_stuck2 f

/-- checkForGsmMessage never returns on the header-only frame, whatever
the fuel. -/
theorem checkForGsmMessage_stuck : ∀ fuel,
    checkForGsmMessage cmtStuckReads true true fuel = none := by
  intro fuel
  unfold checkForGsmMessage
  rw [if_neg (by decide)]
  dsimp only
  rw [show cmtStuckReads 0 ++ cmtStuckReads 1 = ("+CMT: x\r\n").data from by decide]
  rw [show indexOfA (("+CMT: x\r\n").data) (("+CMT:").data) = (0 : Int) from by decide]
  rw [cmtWhile_stuck0 fuel]

/-- Claim C3 counterexample: setPIN, PINIsReady and reset poll forever on a
transport that never answers (their wait loops exit only on "ERR"/"OK"/
"SMS" tokens), and checkForGsmMessage loops forever on a buffer holding a
"+CMT:" header line with no payload line, so these operations do not
terminate for every input stream. -/
theorem engineOps_nontermination_cx :
    ¬ setPINTerminates silentReads ∧
    ¬ PINIsReadyTerminates silentReads ∧
    ¬ resetTerminates silentReads ∧
    ¬ checkForGsmTerminates cmtStuckReads true true := by
  refine ⟨?_, ?_, ?_, ?_⟩
  · rintro ⟨fuel, hf⟩
    rw [setPINLoop_silent fuel 0] at hf
    simp at hf
  · rintro ⟨fuel, hf⟩
    rw [PINIsReadyLoop_silent fuel 0] at hf
    simp at hf
  · rintro ⟨fuel, hf⟩
    unfold resetModel at hf
    rw [resetLoop1_silent fuel 0] at hf
    simp at hf
  · rintro ⟨fuel, hf⟩
    rw [checkForGsmMessage_stuck fuel] at hf
    simp at hf

/-- Claim C3 as amended: each single wait on the transport is bounded by
its deadline — _readSerial stops polling no later than one tick past
now + timeout, for every transport and timeout — but the operations built
on top of it are not all bounded: setPIN, PINIsReady, reset and
checkForGsmMessage do not terminate for every input stream. -/
theorem readSerial_wait_bounded_amended :
    (∀ (avail : Nat → Str) (t0 timeout : Nat),
      readSerialExit avail t0 timeout ≤ t0 + timeout + 1) ∧
    (¬ ∀ reads, setPINTerminates reads) ∧
    (¬ ∀ reads, PINIsReadyTerminates reads) ∧
    (¬ ∀ reads, resetTerminates reads) ∧
    (¬ ∀ reads hasNewMessage hasStatusReport,
      checkForGsmTerminates reads hasNewMessage hasStatusReport) := by
  refine ⟨?_, ?_, ?_, ?_, ?_⟩
  · intro avail t0 timeout
    exact pollFrom_le avail (t0 + timeout) (timeout + 2) t0 (by omega)
  · intro hall
    rcases hall silentReads with ⟨fuel, hf⟩
    rw [setPINLoop_silent fuel 0] at hf
    simp at hf
  · intro hall
    rcases hall silentReads with ⟨fuel, hf⟩
    rw [PINIsReadyLoop_silent fuel 0] at hf
    simp at hf
  · intro hall
    rcases hall silentReads with ⟨fuel, hf⟩
    unfold resetModel at hf
    rw [resetLoop1_silent fuel 0] at hf
    simp at hf
  · intro hall
    rcases hall cmtStuckReads true true with ⟨fuel, hf⟩
    rw [checkForGsmMessage_stuck fuel] at hf
    simp at hf

/-- Splitting a fold over a contiguous index range. -/
theorem foldl_range'_split {α : Type} (f : α → Nat → α) (st : α) (a m n : Nat) :
    (List.range' a (m + n)).foldl f st =
      (List.range' (a + m) n).foldl f ((List.range' a m).foldl f st) := by
  have hr := List.range'_append a m n 1
  simp only [Nat.one_mul] at hr
  rw [Nat.add_comm m n, ← hr, List.foldl_append]

/-- A fold over a single index is one application. -/
theorem foldl_range'_single {α : Type} (f : α → Nat → α) (st : α) (i : Nat) :
    (List.range' i 1).foldl f st = f st i := by
  rw [List.range'_one]
  rfl

/-- The element at an absolute position inside the middle block of a
concatenation. -/
theorem getD_region (X r Y : Str) (j : Nat) (hj : j < r.length) :
    (X ++ (r ++ Y)).getD (X.length + j) ' ' = r.getD j ' ' := by
  rw [List.getD_append_right _ _ _ _ (by omega)]
  rw [show X.length + j - X.length = j by omega]
  exact List.getD_append _ _ _ _ hj

/-- The element at the junction position of a concatenation. -/
theorem getD_concat_cons (X : Str) (y : Char) (Z : Str) :
    (X ++ y :: Z).getD X.length ' ' = y := by
  rw [List.getD_append_right _ _ _ _ le_rfl]
  simp

/-- The "+CMT:" scan step leaves the state alone on every position that
does not hold a line feed. -/
theorem foldl_cmtStep_skip (s : Str) (hn : Bool) :
    ∀ (n i : Nat) (st : ScanState), (∀ j, j < n → s.getD (i + j) ' ' ≠ '\n') →
      (List.range' i n).foldl (cmtStep s hn) st = st := by
  intro n
  induction n with
  | zero => intro i st _; rfl
  | succ n ih =>
    intro i st h
    rw [List.range'_succ]
    have h0 : s.getD i ' ' ≠ '\n' := by
      have := h 0 (by omega)
      rwa [Nat.add_zero] at this
    have hcond : ¬ ((0 < i ∧ s.getD (i - 1) ' ' = '\r' ∧ s.getD i ' ' = '\n') ∨
        s.getD i ' ' = '\n') := by
      rintro (⟨_, _, hc⟩ | hc) <;> exact h0 hc
    have hstep : cmtStep s hn st i = st := by
      unfold cmtStep
      rw [if_neg hcond]
    simp only [List.foldl_cons, hstep]
    exact ih (i + 1) st (fun j hj => by
      have := h (j + 1) (by omega)
      rwa [show i + (j + 1) = i + 1 + j by omega] at this)

/-- A fold over the positions of a middle block with no line feed leaves
the scan state alone. -/
theorem cmtFor_skipSeg (s X r Y : Str) (hn : Bool) (st : ScanState)
    (hs : s = X ++ (r ++ Y)) (hnl : '\n' ∉ r) :
    (List.range' X.length r.length).foldl (cmtStep s hn) st = st := by
  apply foldl_cmtStep_skip
  intro j hj
  rw [hs, getD_region X r Y j hj, List.getD_eq_getElem r ' ' hj]
  intro he
  exact hnl (he ▸ List.getElem_mem hj)

/-- The scan step at a line feed while no line is open records the start of
the following line. -/
theorem cmtStep_open (s : Str) (hn : Bool) (l c : Int) (cs : List Str) (i : Nat)
    (hnl : s.getD i ' ' = '\n') :
    cmtStep s hn ⟨0, l, c, cs⟩ i = ⟨(i : Int) + 1, l, c, cs⟩ := by
  unfold cmtStep
  rw [if_pos (Or.inr hnl)]
  rfl

/-- The scan step at a "\r\n" line end with an open line strictly before
the carriage return dispatches the slice between them, looks the next
"+CMT:" up from the carriage return, and closes the line. -/
theorem cmtStep_dispatch (s : Str) (hn : Bool) (F l c : Int) (cs : List Str) (i : Nat)
    (hnl : s.getD i ' ' = '\n') (hcr : s.getD (i - 1) ' ' = '\r')
    (hF : 0 < F) (hlt : F < (i : Int) - 1) :
    cmtStep s hn ⟨F, l, c, cs⟩ i =
      ⟨0, (i : Int) - 1, indexOfFromA s (("+CMT:").data) ((i : Int) - 1),
        cs ++ (if hn then [substringA s F ((i : Int) - 1)] else [])⟩ := by
  unfold cmtStep
  rw [if_pos (Or.inr hnl)]
  rw [if_neg (show ¬ ((⟨F, l, c, cs⟩ : ScanState).firstIndexHandle = 0) from by
    dsimp only
    omega)]
  dsimp only
  rw [if_pos hcr]
  rw [if_pos (show (0 : Int) < F ∧ (i : Int) - 1 > F from ⟨hF, by omega⟩)]

/-- Processing one complete "+CMT:" frame (header line, then one payload
line, both CRLF-terminated) starting with no line open: the scan records
exactly the payload (when a handler is registered), remembers the index of
the payload's closing carriage return, and re-searches "+CMT:" from
there. -/
theorem cmtFor_frame (s X h p Z : Str) (hn : Bool) (l0 c0 : Int) (cs0 : List Str)
    (hs : s = X ++ (("+CMT:").data ++ (h ++ ('\r' :: '\n' :: (p ++ ('\r' :: '\n' :: Z))))))
    (hhn : '\n' ∉ h) (hpn : '\n' ∉ p) (hp : p ≠ []) :
    (List.range' X.length (9 + h.length + p.length)).foldl (cmtStep s hn)
        ⟨0, l0, c0, cs0⟩ =
      ⟨0, ((X.length + 7 + h.length + p.length : Nat) : Int),
        indexOfFromA s (("+CMT:").data) ((X.length + 7 + h.length + p.length : Nat) : Int),
        cs0 ++ (if hn then [p] else [])⟩ := by
  have hM5 : (("+CMT:").data).length = 5 := rfl
  have hsA : s = X ++ ((("+CMT:").data ++ h ++ ['\r']) ++
      ('\n' :: (p ++ ('\r' :: '\n' :: Z)))) := by
    rw [hs]; simp
  have hsB : s = (X ++ (("+CMT:").data ++ (h ++ ['\r', '\n']))) ++
      ((p ++ ['\r']) ++ ('\n' :: Z)) := by
    rw [hs]; simp
  have hsN1 : s = (X ++ (("+CMT:").data ++ h ++ ['\r'])) ++
      ('\n' :: (p ++ ('\r' :: '\n' :: Z))) := by
    rw [hs]; simp
  have hsN2 : s = (X ++ (("+CMT:").data ++ (h ++ ('\r' :: '\n' :: p)))) ++
      ('\r' :: '\n' :: Z) := by
    rw [hs]; simp
  have hsN3 : s = (X ++ (("+CMT:").data ++ (h ++ ('\r' :: '\n' :: (p ++ ['\r']))))) ++
      ('\n' :: Z) := by
    rw [hs]; simp
  have hlA : (("+CMT:").data ++ h ++ ['\r']).length = 6 + h.length := by
    simp only [List.length_append, List.length_cons, List.length_nil, hM5]
    omega
  have hmemA : ¬ ('\n' ∈ ("+CMT:").data ++ h ++ ['\r']) := by
    intro hm
    rcases List.mem_append.mp hm with hm1 | hm2
    · rcases List.mem_append.mp hm1 with hm3 | hm4
      · exact absurd hm3 (by decide)
      · exact hhn hm4
    · exact absurd hm2 (by decide)
  have hmemB : ¬ ('\n' ∈ p ++ ['\r']) := by
    intro hm
    rcases List.mem_append.mp hm with hm1 | hm2
    · exact hpn hm1
    · exact absurd hm2 (by decide)
  have hget1 : s.getD (X.length + (6 + h.length)) ' ' = '\n' := by
    have hc := getD_concat_cons (X ++ (("+CMT:").data ++ h ++ ['\r'])) '\n'
      (p ++ ('\r' :: '\n' :: Z))
    rw [← hsN1] at hc
    rwa [show (X ++ (("+CMT:").data ++ h ++ ['\r'])).length = X.length + (6 + h.length)
      from by
        simp only [List.length_append, List.length_cons, List.length_nil, hM5]
        omega] at hc
  have hget2 : s.getD (X.length + (6 + h.length) + 1 + (p.length + 1)) ' ' = '\n' := by
    have hc := getD_concat_cons
      (X ++ (("+CMT:").data ++ (h ++ ('\r' :: '\n' :: (p ++ ['\r']))))) '\n' Z
    rw [← hsN3] at hc
    rwa [show (X ++ (("+CMT:").data ++ (h ++ ('\r' :: '\n' :: (p ++ ['\r']))))).length
        = X.length + (6 + h.length) + 1 + (p.length + 1) from by
      simp only [List.length_append, List.length_cons, List.length_nil, hM5]
      omega] at hc
  have hget2' : s.getD (X.length + (6 + h.length) + 1 + (p.length + 1) - 1) ' ' = '\r' := by
    have hc := getD_concat_cons
      (X ++ (("+CMT:").data ++ (h ++ ('\r' :: '\n' :: p)))) '\r' ('\n' :: Z)
    rw [← hsN2] at hc
    rwa [show (X ++ (("+CMT:").data ++ (h ++ ('\r' :: '\n' :: p)))).length
        = X.length + (6 + h.length) + 1 + (p.length + 1) - 1 from by
      simp only [List.length_append, List.length_cons, hM5]
      omega] at hc
  rw [show 9 + h.length + p.length = (6 + h.length) + (1 + ((p.length + 1) + 1)) by omega]
  rw [foldl_range'_split]
  rw [show (List.range' X.length (6 + h.length)).foldl (cmtStep s hn)
      (⟨0, l0, c0, cs0⟩ : ScanState) = ⟨0, l0, c0, cs0⟩ from by
    have hsk := cmtFor_skipSeg s X (("+CMT:").data ++ h ++ ['\r'])
      ('\n' :: (p ++ ('\r' :: '\n' :: Z))) hn ⟨0, l0, c0, cs0⟩ hsA hmemA
    rwa [hlA] at hsk]
  rw [foldl_range'_split]
  rw [foldl_range'_single]
  rw [cmtStep_open s hn l0 c0 cs0 _ hget1]
  rw [foldl_range'_split]
  rw [show (List.range' (X.length + (6 + h.length) + 1) (p.length + 1)).foldl (cmtStep s hn)
      (⟨((X.length + (6 + h.length) : Nat) : Int) + 1, l0, c0, cs0⟩ : ScanState) =
      ⟨((X.length + (6 + h.length) : Nat) : Int) + 1, l0, c0, cs0⟩ from by
    have hsk := cmtFor_skipSeg s (X ++ (("+CMT:").data ++ (h ++ ['\r', '\n'])))
      (p ++ ['\r']) ('\n' :: Z) hn
      ⟨((X.length + (6 + h.length) : Nat) : Int) + 1, l0, c0, cs0⟩ hsB hmemB
    rwa [show (X ++ (("+CMT:").data ++ (h ++ ['\r', '\n']))).length
        = X.length + (6 + h.length) + 1 from by
      simp only [List.length_append, List.length_cons, List.length_nil, hM5]
      omega,
      show (p ++ ['\r']).length = p.length + 1 from by simp] at hsk]
  rw [foldl_range'_single]
  rw [cmtStep_dispatch s hn (((X.length + (6 + h.length) : Nat) : Int) + 1) l0 c0 cs0
    (X.length + (6 + h.length) + 1 + (p.length + 1)) hget2 hget2'
    (by omega)
    (by
      have hpl : 0 < p.length := List.length_pos.mpr hp
      push_cast
      omega)]
  have hlast : ((X.length + (6 + h.length) + 1 + (p.length + 1) : Nat) : Int) - 1 =
      ((X.length + 7 + h.length + p.length : Nat) : Int) := by
    push_cast
    ring
  rw [hlast]
  have hsubp : substringA s (((X.length + (6 + h.length) : Nat) : Int) + 1)
      ((X.length + 7 + h.length + p.length : Nat) : Int) = p := by
    have hc := substringA_concat (X ++ (("+CMT:").data ++ (h ++ ['\r', '\n']))) p
      ('\r' :: '\n' :: Z)
    rw [← (show s = (X ++ (("+CMT:").data ++ (h ++ ['\r', '\n']))) ++
        (p ++ ('\r' :: '\n' :: Z)) from by rw [hs]; simp)] at hc
    rwa [show ((X ++ (("+CMT:").data ++ (h ++ ['\r', '\n']))).length : Int) +
          (p.length : Int) = ((X.length + 7 + h.length + p.length : Nat) : Int) from by
        simp only [List.length_append, List.length_cons, List.length_nil, hM5]
        push_cast
        ring,
      show ((X ++ (("+CMT:").data ++ (h ++ ['\r', '\n']))).length : Int) =
          ((X.length + (6 + h.length) : Nat) : Int) + 1 from by
        simp only [List.length_append, List.length_cons, List.length_nil, hM5]
        push_cast
        ring] at hc
  rw [hsubp]

/-- Characters of an append avoid a character when both parts do. -/
theorem ne_char_append (c : Char) (l1 l2 : Str)
    (a : ∀ x ∈ l1, x ≠ c) (b : ∀ x ∈ l2, x ≠ c) : ∀ x ∈ l1 ++ l2, x ≠ c := by
  intro x hx
  rcases List.mem_append.mp hx with hm | hm
  · exact a x hm
  · exact b x hm

/-- Characters of a cons avoid a character when head and tail do. -/
theorem ne_char_cons (c a : Char) (l : Str)
    (hc : a ≠ c) (hl : ∀ x ∈ l, x ≠ c) : ∀ x ∈ a :: l, x ≠ c := by
  intro x hx
  rcases List.mem_cons.mp hx with rfl | hm
  · exact hc
  · exact hl x hm

/-- The two-frame "+CMT:" buffer contains no "+CDS:" marker: every plus
sign in it starts a "+CMT:" occurrence, which mismatches "+CDS:" at its
third character. -/
theorem findSub_cds_none (pre h1 p1 h2 p2 : Str)
    (hpre : ∀ x ∈ pre, x ≠ '+') (hh1 : ∀ x ∈ h1, x ≠ '+') (hp1 : ∀ x ∈ p1, x ≠ '+')
    (hh2 : ∀ x ∈ h2, x ≠ '+') (hp2 : ∀ x ∈ p2, x ≠ '+') :
    findSub (("+CDS:").data)
      (pre ++ (("+CMT:").data ++ (h1 ++ ('\r' :: '\n' :: (p1 ++ ('\r' :: '\n' ::
        (("+CMT:").data ++ (h2 ++ ('\r' :: '\n' :: (p2 ++ ['\r', '\n'])))))))))) = none := by
  have hA1 : ∀ x ∈ ('C' :: 'M' :: 'T' :: ':' ::
      (h1 ++ ('\r' :: '\n' :: (p1 ++ ['\r', '\n'])))), x ≠ '+' :=
    ne_char_cons _ _ _ (by decide) (ne_char_cons _ _ _ (by decide)
      (ne_char_cons _ _ _ (by decide) (ne_char_cons _ _ _ (by decide)
        (ne_char_append _ _ _ hh1 (ne_char_cons _ _ _ (by decide)
          (ne_char_cons _ _ _ (by decide)
            (ne_char_append _ _ _ hp1 (by decide))))))))
  have hA2 : ∀ x ∈ ('C' :: 'M' :: 'T' :: ':' ::
      (h2 ++ ('\r' :: '\n' :: (p2 ++ ['\r', '\n'])))), x ≠ '+' :=
    ne_char_cons _ _ _ (by decide) (ne_char_cons _ _ _ (by decide)
      (ne_char_cons _ _ _ (by decide) (ne_char_cons _ _ _ (by decide)
        (ne_char_append _ _ _ hh2 (ne_char_cons _ _ _ (by decide)
          (ne_char_cons _ _ _ (by decide)
            (ne_char_append _ _ _ hp2 (by decide))))))))
  have hbt : (('+' : Char) == '+') = true := by decide
  have hbc : (('C' : Char) == 'C') = true := by decide
  have hbd : (('D' : Char) == 'M') = false := by decide
  rw [show (("+CDS:").data) = '+' :: 'C' :: 'D' :: 'S' :: ':' :: [] from rfl]
  rw [findSub_skipAll '+' ('C' :: 'D' :: 'S' :: ':' :: []) pre _ hpre]
  rw [show (("+CMT:").data ++ (h1 ++ ('\r' :: '\n' :: (p1 ++ ('\r' :: '\n' ::
        (("+CMT:").data ++ (h2 ++ ('\r' :: '\n' :: (p2 ++ ['\r', '\n'])))))))))
      = '+' :: ('C' :: 'M' :: 'T' :: ':' :: (h1 ++ ('\r' :: '\n' :: (p1 ++ ('\r' :: '\n' ::
        (("+CMT:").data ++ (h2 ++ ('\r' :: '\n' :: (p2 ++ ['\r', '\n']))))))))) from rfl]
  rw [findSub_stepMismatch _ _ _ (by simp [List.isPrefixOf, hbt, hbc, hbd])]
  rw [show ('C' :: 'M' :: 'T' :: ':' :: (h1 ++ ('\r' :: '\n' :: (p1 ++ ('\r' :: '\n' ::
        (("+CMT:").data ++ (h2 ++ ('\r' :: '\n' :: (p2 ++ ['\r', '\n'])))))))))
      = ('C' :: 'M' :: 'T' :: ':' :: (h1 ++ ('\r' :: '\n' :: (p1 ++ ['\r', '\n'])))) ++
        (("+CMT:").data ++ (h2 ++ ('\r' :: '\n' :: (p2 ++ ['\r', '\n'])))) from by simp]
  rw [findSub_skipAll '+' _ _ _ hA1]
  rw [show (("+CMT:").data ++ (h2 ++ ('\r' :: '\n' :: (p2 ++ ['\r', '\n']))))
      = '+' :: ('C' :: 'M' :: 'T' :: ':' :: (h2 ++ ('\r' :: '\n' :: (p2 ++ ['\r', '\n']))))
      from rfl]
  rw [findSub_stepMismatch _ _ _ (by simp [List.isPrefixOf, hbt, hbc, hbd])]
  rw [show ('C' :: 'M' :: 'T' :: ':' :: (h2 ++ ('\r' :: '\n' :: (p2 ++ ['\r', '\n']))))
      = ('C' :: 'M' :: 'T' :: ':' :: (h2 ++ ('\r' :: '\n' :: (p2 ++ ['\r', '\n'])))) ++
        ([] : Str) from by simp]
  rw [findSub_skipAll '+' _ _ _ hA2]
  rw [findSub_nil _ (by simp)]
  simp

/-- The "+CMT:" while loop returns at once when the marker search failed. -/
theorem cmtWhile_exit (s : Str) (hn : Bool) (st : ScanState) (fuel : Nat)
    (h : st.indexOfCMT = -1) : cmtWhile s hn st fuel = some st := by
  cases fuel with
  | zero =>
    simp only [cmtWhile]
    rw [if_pos h]
  | succ f =>
    simp only [cmtWhile]
    rw [if_pos h]

/-- On a buffer made of two complete "+CMT:" frames, the while loop of the
scan finishes within two passes and dispatches exactly the two payloads, in
order (or nothing when no handler is registered). -/
theorem cmtWhile_twoFrames (s pre h1 p1 h2 p2 : Str) (hn : Bool)
    (hs : s = pre ++ (("+CMT:").data ++ (h1 ++ ('\r' :: '\n' :: (p1 ++ ('\r' :: '\n' ::
      (("+CMT:").data ++ (h2 ++ ('\r' :: '\n' :: (p2 ++ ['\r', '\n']))))))))))
    (hpre : ∀ x ∈ pre, x ≠ '+')
    (hh1n : '\n' ∉ h1) (hp1n : '\n' ∉ p1) (hh2n : '\n' ∉ h2) (hp2n : '\n' ∉ p2)
    (hp1 : p1 ≠ []) (hp2 : p2 ≠ []) :
    cmtWhile s hn ⟨0, 0, indexOfA s (("+CMT:").data), []⟩ 2 =
      some ⟨0, ((pre.length + 16 + h1.length + p1.length + h2.length + p2.length : Nat) : Int),
        -1, if hn then [p1, p2] else []⟩ := by
  have hM5 : (("+CMT:").data).length = 5 := rfl
  have hslen : s.length =
      pre.length + ((9 + h1.length + p1.length) + (9 + h2.length + p2.length)) := by
    rw [hs]
    simp only [List.length_append, List.length_cons, List.length_nil, hM5]
    omega
  have hidx0 : indexOfA s (("+CMT:").data) = (pre.length : Int) := by
    apply indexOfA_eq_some
    · omega
    · rw [hs]
      rw [show (("+CMT:").data) = '+' :: ("CMT:").data from rfl]
      rw [findSub_skipAll '+' (("CMT:").data) pre _ hpre]
      rw [findSub_here _ _ (by simp) (prefAppend _ _)]
      simp
  rw [cmtWhile_step s hn _ 1 (by
    dsimp only
    rw [hidx0]
    omega)]
  dsimp only
  rw [hidx0, Int.toNat_ofNat]
  unfold cmtFor
  rw [show s.length - pre.length =
      (9 + h1.length + p1.length) + (9 + h2.length + p2.length) from by omega]
  rw [foldl_range'_split]
  rw [cmtFor_frame s pre h1 p1
      (("+CMT:").data ++ (h2 ++ ('\r' :: '\n' :: (p2 ++ ['\r', '\n'])))) hn
      0 (pre.length : Int) [] hs hh1n hp1n hp1]
  rw [List.nil_append]
  rw [show pre.length + (9 + h1.length + p1.length) =
      (pre ++ (("+CMT:").data ++ (h1 ++ ('\r' :: '\n' :: (p1 ++ ['\r', '\n']))))).length from by
    simp only [List.length_append, List.length_cons, List.length_nil, hM5]
    omega]
  rw [cmtFor_frame s (pre ++ (("+CMT:").data ++ (h1 ++ ('\r' :: '\n' :: (p1 ++ ['\r', '\n'])))))
      h2 p2 [] hn _ _ _ (by rw [hs]; simp) hh2n hp2n hp2]
  rw [show (pre ++ (("+CMT:").data ++ (h1 ++ ('\r' :: '\n' :: (p1 ++ ['\r', '\n']))))).length
      + 7 + h2.length + p2.length
      = pre.length + 16 + h1.length + p1.length + h2.length + p2.length from by
    simp only [List.length_append, List.length_cons, List.length_nil, hM5]
    omega]
  rw [show indexOfFromA s (("+CMT:").data)
      ((pre.length + 16 + h1.length + p1.length + h2.length + p2.length : Nat) : Int) =
      -1 from by
    apply indexOfFromA_none
    rw [show s = (pre ++ (("+CMT:").data ++ (h1 ++ ('\r' :: '\n' :: (p1 ++ ('\r' :: '\n' ::
        (("+CMT:").data ++ (h2 ++ ('\r' :: '\n' :: p2))))))))) ++ ('\r' :: '\n' :: []) from by
      rw [hs]; simp]
    rw [show pre.length + 16 + h1.length + p1.length + h2.length + p2.length =
        (pre ++ (("+CMT:").data ++ (h1 ++ ('\r' :: '\n' :: (p1 ++ ('\r' :: '\n' ::
          (("+CMT:").data ++ (h2 ++ ('\r' :: '\n' :: p2))))))))).length from by
      simp only [List.length_append, List.length_cons, hM5]
      omega]
    rw [List.drop_left]
    decide]
  have hex := cmtWhile_exit s hn
    ⟨0, ((pre.length + 16 + h1.length + p1.length + h2.length + p2.length : Nat) : Int),
      -1, (if hn then [p1] else []) ++ (if hn then [p2] else [])⟩ 1 rfl
  rw [hex]
  cases hn <;> simp

/-- Claim C5: when the drained buffer (first read, non-empty, plus the
follow-up read) consists of two "+CMT:" frames, each a CRLF-terminated
header line followed by one CRLF-terminated payload line, checkForGsmMessage
dispatches onNewMessage exactly twice, in order of appearance, with the
text strictly between each frame's header line break and the next line
break; with no handler registered the same scan is a silent no-op (no
calls, same termination), and no status-report handler fires.  The frame
shape is expressed by the concatenation; the header and payload texts
contain no line feed and no plus sign (a plus sign inside them would start
another frame), and the payloads are non-empty. -/
theorem checkForGsmMessage_twoCmtFrames (reads : Nat → Str)
    (pre h1 p1 h2 p2 : Str) (hasNewMessage hasStatusReport : Bool)
    (hr : reads 0 ++ reads 1 = pre ++ (("+CMT:").data ++ (h1 ++ ('\r' :: '\n' :: (p1 ++
      ('\r' :: '\n' :: (("+CMT:").data ++ (h2 ++ ('\r' :: '\n' :: (p2 ++ ['\r', '\n']))))))))))
    (hr0 : reads 0 ≠ [])
    (hpre : ∀ x ∈ pre, x ≠ '+') (hh1p : ∀ x ∈ h1, x ≠ '+') (hp1p : ∀ x ∈ p1, x ≠ '+')
    (hh2p : ∀ x ∈ h2, x ≠ '+') (hp2p : ∀ x ∈ p2, x ≠ '+')
    (hh1n : '\n' ∉ h1) (hp1n : '\n' ∉ p1) (hh2n : '\n' ∉ h2) (hp2n : '\n' ∉ p2)
    (hp1 : p1 ≠ []) (hp2 : p2 ≠ []) :
    checkForGsmMessage reads hasNewMessage hasStatusReport 2 =
      some { newMessageCalls := if hasNewMessage then [p1, p2] else [],
             statusReportCalls := [] } := by
  unfold checkForGsmMessage
  rw [if_neg (by
    rw [List.length_eq_zero]
    exact hr0)]
  dsimp only
  rw [hr]
  rw [show cdsScan (pre ++ (("+CMT:").data ++ (h1 ++ ('\r' :: '\n' :: (p1 ++
      ('\r' :: '\n' :: (("+CMT:").data ++ (h2 ++ ('\r' :: '\n' :: (p2 ++ ['\r', '\n']))))))))))
      hasStatusReport = [] from by
    unfold cdsScan
    rw [indexOfA_eq_none _ _ (findSub_cds_none pre h1 p1 h2 p2 hpre hh1p hp1p hh2p hp2p)]
    rw [if_pos rfl]]
  rw [cmtWhile_twoFrames
    (pre ++ (("+CMT:").data ++ (h1 ++ ('\r' :: '\n' :: (p1 ++
      ('\r' :: '\n' :: (("+CMT:").data ++ (h2 ++ ('\r' :: '\n' :: (p2 ++ ['\r', '\n']))))))))))
    pre h1 p1 h2 p2 hasNewMessage rfl hpre hh1n hp1n hh2n hp2n hp1 hp2]

/-- Witness for C5: a buffer with two concrete frames dispatches the two
payloads "AA" and "BB", in order, with no status-report call. -/
theorem checkForGsmMessage_twoCmtFrames_witness :
    checkForGsmMessage
      (fun n => if n = 0 then (("+CMT: \"\",24\r\nAA\r\n+CMT: \"\",25\r\nBB\r\n").data) else [])
      true true 2 =
      some { newMessageCalls := [("AA").data, ("BB").data], statusReportCalls := [] } :=
  checkForGsmMessage_twoCmtFrames _ [] ((" \"\",24").data) (("AA").data) ((" \"\",25").data)
    (("BB").data) true true (by decide) (by decide) (by decide) (by decide) (by decide)
    (by decide) (by decide) (by decide) (by decide) (by decide) (by decide) (by decide)
    (by decide)
